import Mathlib

/-!
Verification of the schema-evolution compatibility demo (`src/main.rs`).

The program encodes and decodes Rust structs of string fields with
serde_json and demonstrates forward/backward compatibility between two
schema revisions (`v0`, `v1`), a schema-agnostic append-only store
(`Database`), and a single-shot client/server exchange (`run_network`).

The byte-level JSON format is external to the repository (serde_json);
the spec fixes its policy: a record is encoded as the named fields in
declaration order, unknown fields in the input are ignored on decode,
and a field required by the target schema that is absent from the input
is a `missing field` decode error.  We therefore embed an encoded record
as its association list of string fields, in encoding order, and embed
decoding as name-directed field lookup, which is exactly how serde_json
treats the flat string-field structs of this program.
-/

/-- An encoded record: the named string fields in the order the encoder
emitted them.  Stands for the JSON text `{"k1":"v1",...}` produced by
`serde_json::to_string` for the flat string-field structs of this program. -/
abbrev Encoded : Type := List (String × String)

/-- Decode failures of the codec: a required field absent from the input
(serde_json's `missing field` error), or input that is not valid encoded
data at all (`Malformed`). -/
inductive DecodeError : Type where
  | missingField (field : String)
  | malformed
deriving DecidableEq, Repr

/-- Fetch one required field from an encoded record by name: the first
occurrence wins, and absence is the `missing field` error naming the field,
exactly serde_json's policy for a field a struct requires. -/
def getField : Encoded → String → Except DecodeError String
  | [], key => Except.error (DecodeError.missingField key)
  | (k, v) :: rest, key => if k == key then Except.ok v else getField rest key

/-- `true` exactly on `Except.error`: the Rust `Result::is_err`. -/
def isErr {ε α : Type} : Except ε α → Bool
  | Except.error _ => true
  | Except.ok _ => false

/-- Rust's `Serialize`: how a typed value turns into encoded fields.
`save` in `main.rs` is `serde_json::to_string`, which emits the struct's
fields by name in declaration order. -/
class Serial (T : Type) where
  ser : T → Encoded

/-- Rust's `Deserialize`: how encoded fields turn back into a typed value.
`load::<T>` in `main.rs` is `serde_json::from_str`, which takes each field
the struct requires by name and ignores fields the struct does not know. -/
class Deserial (T : Type) where
  deser : Encoded → Except DecodeError T

/-- `fn save<T: Serialize>(t: &T) -> String` of `main.rs` (the
`serde_json::to_string` call; its `expect` branch is unreachable for the
string-field records of this program, so the embedding is total). -/
def save {T : Type} [Serial T] (t : T) : Encoded := Serial.ser t

/-- `fn load<T: Deserialize>(s: &str) -> Result<T, Error>` of `main.rs`. -/
def load (T : Type) [Deserial T] (s : Encoded) : Except DecodeError T :=
  Deserial.deser s

namespace v0

/-- `v0::GreetingRequest` of `main.rs`: fields `name`, `favorite_thing`. -/
structure GreetingRequest : Type where
  name : String
  favorite_thing : String
deriving DecidableEq, Repr

/-- `v0::Greeting` of `main.rs`: fields `name`, `greeting`. -/
structure Greeting : Type where
  name : String
  greeting : String
deriving DecidableEq, Repr

end v0

namespace v1

/-- `v1::GreetingRequest` of `main.rs`: `v0::GreetingRequest` plus the
added required field `favorite_song`. -/
structure GreetingRequest : Type where
  name : String
  favorite_thing : String
  favorite_song : String
deriving DecidableEq, Repr

/-- `v1::Greeting` of `main.rs`: `v0::Greeting` with the required field
`name` removed. -/
structure Greeting : Type where
  greeting : String
deriving DecidableEq, Repr

end v1

instance : Serial v0.GreetingRequest :=
  ⟨fun r => [("name", r.name), ("favorite_thing", r.favorite_thing)]⟩

instance : Deserial v0.GreetingRequest :=
  ⟨fun s => do
    let name ← getField s "name"
    let favorite_thing ← getField s "favorite_thing"
    pure ⟨name, favorite_thing⟩⟩

instance : Serial v0.Greeting :=
  ⟨fun g => [("name", g.name), ("greeting", g.greeting)]⟩

instance : Deserial v0.Greeting :=
  ⟨fun s => do
    let name ← getField s "name"
    let greeting ← getField s "greeting"
    pure ⟨name, greeting⟩⟩

instance : Serial v1.GreetingRequest :=
  ⟨fun r => [("name", r.name), ("favorite_thing", r.favorite_thing),
             ("favorite_song", r.favorite_song)]⟩

instance : Deserial v1.GreetingRequest :=
  ⟨fun s => do
    let name ← getField s "name"
    let favorite_thing ← getField s "favorite_thing"
    let favorite_song ← getField s "favorite_song"
    pure ⟨name, favorite_thing, favorite_song⟩⟩

instance : Serial v1.Greeting :=
  ⟨fun g => [("greeting", g.greeting)]⟩

instance : Deserial v1.Greeting :=
  ⟨fun s => do
    let greeting ← getField s "greeting"
    pure ⟨greeting⟩⟩

/-- The `Database` of `database_tests` in `main.rs`: an append-only list
of encoded entries, no schema tag stored. -/
structure Database : Type where
  entries : List Encoded
deriving DecidableEq

/-- `Database::new()` of `main.rs`. -/
def Database.new : Database := ⟨[]⟩

/-- `Database::insert<T: Serialize>` of `main.rs`: encode the value and
push the result onto `entries`. -/
def Database.insert {T : Type} [Serial T] (db : Database) (t : T) : Database :=
  ⟨db.entries ++ [save t]⟩

/-- The body of `Database::read_all` of `main.rs`:
`entries.iter().map(|s| load(s)).collect::<Result<Vec<T>, _>>()`, which
decodes in order and stops at the first failing entry. -/
def decodeEntries (T : Type) [Deserial T] : List Encoded → Except DecodeError (List T)
  | [] => Except.ok []
  | e :: rest =>
    match load T e with
    | Except.error err => Except.error err
    | Except.ok v =>
      match decodeEntries T rest with
      | Except.error err => Except.error err
      | Except.ok vs => Except.ok (v :: vs)

/-- `Database::read_all<T: Deserialize>` of `main.rs`. -/
def Database.read_all (db : Database) (T : Type) [Deserial T] :
    Except DecodeError (List T) :=
  decodeEntries T db.entries

/-! ## The channel simulator of `server_client_tests` -/

/-- `ReqOld` of `main.rs`: the request schema the v0 client is built
against, a single field `name`. -/
structure ReqOld : Type where
  name : String
deriving DecidableEq, Repr

/-- `RespOld` of `main.rs`: the response schema the v0 client decodes,
a single field `greeting`. -/
structure RespOld : Type where
  greeting : String
deriving DecidableEq, Repr

/-- `ReqNew` of `main.rs`: the request schema the v1 server decodes.
Structurally identical to `ReqOld` (the comment in the source notes that
deleting `name` would not be forward-compatible). -/
structure ReqNew : Type where
  name : String
deriving DecidableEq, Repr

/-- `RespNew` of `main.rs`: the response schema the v1 server encodes,
a single field `greeting`. -/
structure RespNew : Type where
  greeting : String
deriving DecidableEq, Repr

instance : Serial ReqOld := ⟨fun r => [("name", r.name)]⟩

instance : Deserial ReqOld :=
  ⟨fun s => do
    let name ← getField s "name"
    pure ⟨name⟩⟩

instance : Serial RespOld := ⟨fun r => [("greeting", r.greeting)]⟩

instance : Deserial RespOld :=
  ⟨fun s => do
    let greeting ← getField s "greeting"
    pure ⟨greeting⟩⟩

instance : Serial ReqNew := ⟨fun r => [("name", r.name)]⟩

instance : Deserial ReqNew :=
  ⟨fun s => do
    let name ← getField s "name"
    pure ⟨name⟩⟩

instance : Serial RespNew := ⟨fun r => [("greeting", r.greeting)]⟩

instance : Deserial RespNew :=
  ⟨fun s => do
    let greeting ← getField s "greeting"
    pure ⟨greeting⟩⟩

/-- `ReqOld::default()`: `String::default()` is the empty string. -/
def reqOldDefault : ReqOld := ⟨""⟩

/-- `RespOld::default()`. -/
def respOldDefault : RespOld := ⟨""⟩

/-- `ReqNew::default()`. -/
def reqNewDefault : ReqNew := ⟨""⟩

/-- `RespNew::default()`. -/
def respNewDefault : RespNew := ⟨""⟩

/-- What a boxed handler of `main.rs` can do with its input: return
`Ok(String)`, return `Err(serde_json::Error)`, or panic (the `expect`
calls inside `make_v0_client` and `make_v0_server`); a panic aborts the
exchange, so it is a distinct outcome, not an `Err`. -/
inductive HOut (α : Type) : Type where
  | ok (a : α)
  | err (e : DecodeError)
  | panicked (msg : String)
deriving DecidableEq, Repr

/-- `Client` of `main.rs`: a pre-encoded request and a boxed response
handler from response bytes to a user-facing string. -/
structure Client : Type where
  request : Encoded
  handle_response : Encoded → HOut String

/-- `Server` of `main.rs`: a boxed request handler from request bytes to
encoded response bytes. -/
structure Server : Type where
  handle_request : Encoded → HOut Encoded

/-- `run_network` of `main.rs`: hand the client's request to the server;
`?` propagates the server's `Err` (and a panic aborts); otherwise hand
the server's response to the client's handler and return its result. -/
def run_network (client : Client) (server : Server) : HOut String :=
  match server.handle_request client.request with
  | HOut.ok response => client.handle_response response
  | HOut.err e => HOut.err e
  | HOut.panicked m => HOut.panicked m

/-- The `{resp:?}` Debug rendering of a decoded `RespOld`, as formatted by
`make_v0_client`'s handler. -/
def reprRespOld (r : RespOld) : String :=
  "RespOld \x7b greeting: \"" ++ r.greeting ++ "\" \x7d"

/-- `make_v0_client` of `main.rs`: request is the encoded
`ReqOld::default()`; the handler decodes a `RespOld` (panicking on decode
failure, per its `expect`) and formats it. -/
def make_v0_client : Client :=
  { request := save reqOldDefault
    handle_response := fun resp =>
      match load RespOld resp with
      | Except.ok r => HOut.ok ("Response: " ++ reprRespOld r)
      | Except.error _ => HOut.panicked "response should decode" }

/-- `make_v0_server` of `main.rs`: decodes a `ReqOld` (panicking on decode
failure, per its `expect`) and answers with `RespOld::default()` encoded. -/
def make_v0_server : Server :=
  { handle_request := fun req =>
      match load ReqOld req with
      | Except.ok _ => HOut.ok (save respOldDefault)
      | Except.error _ => HOut.panicked "request should decode" }

/-- `make_v1_client` of `main.rs`: request is the encoded
`ReqNew::default()`; the handler decodes a `RespNew` (propagating decode
failure with `?`) and formats it. -/
def make_v1_client : Client :=
  { request := save reqNewDefault
    handle_response := fun resp =>
      match load RespNew resp with
      | Except.ok r =>
          HOut.ok ("Response: RespNew \x7b greeting: \"" ++ r.greeting ++ "\" \x7d")
      | Except.error e => HOut.err e }

/-- `make_v1_server` of `main.rs`: decodes a `ReqNew` (propagating decode
failure with `?`) and answers with `RespNew::default()` encoded. -/
def make_v1_server : Server :=
  { handle_request := fun req =>
      match load ReqNew req with
      | Except.ok _ => HOut.ok (save respNewDefault)
      | Except.error e => HOut.err e }

/-! ## Helper lemmas about `decodeEntries` -/

/-- `decodeEntries` errors exactly when some entry fails to decode. -/
theorem decodeEntries_isErr_iff (T : Type) [Deserial T] (es : List Encoded) :
    isErr (decodeEntries T es) = true ↔ ∃ e ∈ es, isErr (load T e) = true := by
  induction es with
  | nil => simp [decodeEntries, isErr]
  | cons e rest ih =>
    simp only [decodeEntries]
    cases h : load T e with
    | error err =>
      simp only [List.mem_cons]
      constructor
      · intro _
        exact ⟨e, Or.inl rfl, by simp [h, isErr]⟩
      · intro _
        simp [isErr]
    | ok v =>
      cases h2 : decodeEntries T rest with
      | error err =>
        simp only [List.mem_cons]
        constructor
        · intro _
          obtain ⟨x, hx, hxe⟩ := ih.mp (by simp [h2, isErr])
          exact ⟨x, Or.inr hx, hxe⟩
        · intro _
          simp [isErr]
      | ok vs =>
        constructor
        · intro hcontra
          simp [isErr] at hcontra
        · rintro ⟨x, hx, hxe⟩
          rcases List.mem_cons.mp hx with rfl | hx2
          · rw [h] at hxe
            simp [isErr] at hxe
          · have hex : ∃ y ∈ rest, isErr (load T y) = true := ⟨x, hx2, hxe⟩
            have hres := ih.mpr hex
            rw [h2] at hres
            simp [isErr] at hres

/-- `decodeEntries` stops at the first failing entry: if everything before
`e` decodes and `e` fails with `err`, the whole run returns `err`, whatever
comes after `e`. -/
theorem decodeEntries_first_error (T : Type) [Deserial T] (pre : List Encoded) :
    ∀ (e : Encoded) (post : List Encoded) (err : DecodeError),
      (∀ x ∈ pre, isErr (load T x) = false) → load T e = Except.error err →
      decodeEntries T (pre ++ e :: post) = Except.error err := by
  induction pre with
  | nil =>
    intro e post err _ he
    simp only [List.nil_append, decodeEntries, he]
  | cons p ps ih =>
    intro e post err hpre he
    have hp : isErr (load T p) = false := hpre p (List.mem_cons_self p ps)
    simp only [List.cons_append, decodeEntries]
    cases h : load T p with
    | error err2 =>
      rw [h] at hp
      simp [isErr] at hp
    | ok v =>
      have hrec := ih e post err (fun x hx => hpre x (List.mem_cons_of_mem p hx)) he
      simp [List.append_eq, hrec]

/-- `decodeEntries` succeeds with `vs` exactly when the entries decode,
in order, to the values of `vs`. -/
theorem decodeEntries_ok_iff (T : Type) [Deserial T] (es : List Encoded) :
    ∀ vs : List T,
      decodeEntries T es = Except.ok vs ↔ es.map (load T) = vs.map Except.ok := by
  induction es with
  | nil =>
    intro vs
    cases vs <;> simp [decodeEntries]
  | cons e rest ih =>
    intro vs
    simp only [decodeEntries, List.map]
    cases h : load T e with
    | error err =>
      constructor
      · intro hcontra
        cases hcontra
      · intro heq
        cases vs with
        | nil => simp at heq
        | cons w ws => simp at heq
    | ok v =>
      cases h2 : decodeEntries T rest with
      | error err2 =>
        constructor
        · intro hcontra
          cases hcontra
        · intro heq
          cases vs with
          | nil => simp at heq
          | cons w ws =>
            simp only [List.map, List.cons.injEq, Except.ok.injEq] at heq
            have hrest := (ih ws).mpr heq.2
            rw [h2] at hrest
            cases hrest
      | ok vs2 =>
        constructor
        · intro hok
          cases hok
          have hrest := (ih vs2).mp h2
          simp [hrest]
        · intro heq
          cases vs with
          | nil => simp at heq
          | cons w ws =>
            simp only [List.map, List.cons.injEq, Except.ok.injEq] at heq
            have hrest := (ih ws).mpr heq.2
            rw [h2] at hrest
            cases hrest
            rw [heq.1]

/-! ## The claims -/

/-- C1: for `GreetingRequest`, where revision v1 adds the required field
`favorite_song` to revision v0, decoding the encoding of any
`v0::GreetingRequest` under the v1 schema fails with a missing-field error
naming `favorite_song`, and decoding the encoding of any
`v1::GreetingRequest` under the v0 schema succeeds (with the shared fields
preserved). -/
theorem greetingRequest_added_field_compat :
    (∀ r : v0.GreetingRequest,
        load v1.GreetingRequest (save r) =
          Except.error (DecodeError.missingField "favorite_song"))
  ∧ (∀ r : v1.GreetingRequest,
        load v0.GreetingRequest (save r) = Except.ok ⟨r.name, r.favorite_thing⟩) :=
  ⟨fun _ => rfl, fun _ => rfl⟩

/-- C2 counterexample: the claim says encode-under-v0 / decode-under-v1
succeeds and encode-under-v1 / decode-under-v0 fails; at the concrete values
of `database_tests`, the code does exactly the opposite: decoding the
v0 encoding under v1 fails with `MissingField("favorite_song")`, and
decoding the v1 encoding under v0 succeeds. -/
theorem addedField_claimed_directions_false :
    load v1.GreetingRequest (save (v0.GreetingRequest.mk "Greg" "Rust")) =
      Except.error (DecodeError.missingField "favorite_song")
  ∧ load v0.GreetingRequest
        (save (v1.GreetingRequest.mk "Greg" "Rust" "Never gonna give you up")) =
      Except.ok (v0.GreetingRequest.mk "Greg" "Rust") :=
  ⟨rfl, rfl⟩

/-- C2 amended: for the record where revision B (v1) adds one field with no
default to revision A (v0), encoding under B and decoding under A succeeds,
while encoding under A and decoding under B fails with a missing-field
error naming the added field. -/
theorem addedField_compat_directions :
    (∀ r : v1.GreetingRequest, ∃ r0 : v0.GreetingRequest,
        load v0.GreetingRequest (save r) = Except.ok r0)
  ∧ (∀ r : v0.GreetingRequest,
        load v1.GreetingRequest (save r) =
          Except.error (DecodeError.missingField "favorite_song")) :=
  ⟨fun r => ⟨⟨r.name, r.favorite_thing⟩, rfl⟩, fun _ => rfl⟩

/-- C3: for `Greeting`, where revision v1 removes the required field `name`
from revision v0, decoding the encoding of any `v0::Greeting` under the v1
schema succeeds (the surplus `name` field is ignored), and decoding the
encoding of any `v1::Greeting` under the v0 schema fails with a
missing-field error. -/
theorem greeting_removed_field_compat :
    (∀ g : v0.Greeting, load v1.Greeting (save g) = Except.ok ⟨g.greeting⟩)
  ∧ (∀ g : v1.Greeting,
        load v0.Greeting (save g) = Except.error (DecodeError.missingField "name")) :=
  ⟨fun _ => rfl, fun _ => rfl⟩

/-- C4: `read_all` decodes every stored entry in insertion order; it errors
exactly when some entry fails to decode, the error returned is the first
failing entry's error (independent of everything after it), and on success
the result lists each entry's decoded value in order.  In particular a
store holding a `v0::Greeting` entry then a `v1::Greeting` entry fails
under `read_all::<v0::Greeting>` and succeeds with both entries under
`read_all::<v1::Greeting>`. -/
theorem read_all_fail_fast :
    (∀ (T : Type) [Deserial T] (db : Database),
        isErr (db.read_all T) = true ↔ ∃ e ∈ db.entries, isErr (load T e) = true)
  ∧ (∀ (T : Type) [Deserial T] (pre : List Encoded) (e : Encoded)
        (post : List Encoded) (err : DecodeError),
        (∀ x ∈ pre, isErr (load T x) = false) → load T e = Except.error err →
        Database.read_all ⟨pre ++ e :: post⟩ T = Except.error err)
  ∧ (∀ (T : Type) [Deserial T] (db : Database) (vs : List T),
        db.read_all T = Except.ok vs ↔ db.entries.map (load T) = vs.map Except.ok)
  ∧ (∀ (g0 : v0.Greeting) (g1 : v1.Greeting),
        isErr (((Database.new.insert g0).insert g1).read_all v0.Greeting) = true
      ∧ ((Database.new.insert g0).insert g1).read_all v1.Greeting =
          Except.ok [⟨g0.greeting⟩, ⟨g1.greeting⟩]) := by
  refine ⟨?_, ?_, ?_, ?_⟩
  · intro T _ db
    exact decodeEntries_isErr_iff T db.entries
  · intro T _ pre e post err hpre he
    exact decodeEntries_first_error T pre e post err hpre he
  · intro T _ db vs
    exact decodeEntries_ok_iff T db.entries vs
  · intro g0 g1
    exact ⟨rfl, rfl⟩

/-- C4 witness: the concrete mixed-revision store of
`databases_require_forward_compatibile_changes`, read back under
`v0::Greeting`, fails with the `v1` entry's `MissingField("name")`. -/
theorem read_all_fail_fast_witness :
    Database.read_all
        ⟨[save (v0.Greeting.mk "Greg" "Hi greg")] ++
          save (v1.Greeting.mk "Hi greg") :: []⟩ v0.Greeting =
      Except.error (DecodeError.missingField "name") :=
  read_all_fail_fast.2.1 v0.Greeting [save (v0.Greeting.mk "Greg" "Hi greg")]
    (save (v1.Greeting.mk "Hi greg")) [] (DecodeError.missingField "name")
    (by decide) rfl

/-- C5: `run_network` hands the client's request bytes to the server; if
the server's handler returns a decode error, the exchange returns that
same error whatever the client's response handler is (so the handler is
never consulted); if the server's handler returns response bytes, the
exchange's result is exactly the client's response handler applied to
those bytes. -/
theorem run_network_exchange :
    (∀ (c : Client) (s : Server) (e : DecodeError),
        s.handle_request c.request = HOut.err e →
        run_network c s = HOut.err e
        ∧ ∀ h : Encoded → HOut String, run_network ⟨c.request, h⟩ s = HOut.err e)
  ∧ (∀ (c : Client) (s : Server) (resp : Encoded),
        s.handle_request c.request = HOut.ok resp →
        run_network c s = c.handle_response resp) := by
  constructor
  · intro c s e he
    constructor
    · simp [run_network, he]
    · intro h
      simp [run_network, he]
  · intro c s resp hr
    simp [run_network, hr]

/-- C5 witness: against a server that always answers `Err(Malformed)`, the
exchange returns exactly that error. -/
theorem run_network_exchange_witness :
    run_network ⟨[("name", "x")], fun _ => HOut.ok "unused"⟩
        ⟨fun _ => HOut.err DecodeError.malformed⟩ =
      HOut.err DecodeError.malformed :=
  (run_network_exchange.1 ⟨[("name", "x")], fun _ => HOut.ok "unused"⟩
      ⟨fun _ => HOut.err DecodeError.malformed⟩ DecodeError.malformed rfl).1

/-- C6: the v0 client / v1 server exchange of `server_update_is_ok`
succeeds end to end: the v1 server decodes the v0 request and the v0
client decodes the v1 response. -/
theorem server_update_is_ok :
    run_network make_v0_client make_v1_server =
      HOut.ok ("Response: RespOld \x7b greeting: \"\" \x7d") :=
  rfl

/-- C7: `save` and `load` are deterministic: two runs of `save` on the same
value yield identical encodings, and two runs of `load` on the same input
yield identical results (both are pure functions of their input). -/
theorem save_load_deterministic :
    (∀ (T : Type) [Serial T] (v : T), save v = save v)
  ∧ (∀ (T : Type) [Deserial T] (s : Encoded), load T s = load T s) :=
  ⟨fun _ _ _ => rfl, fun _ _ _ => rfl⟩

/-- C8: encoding never fails: for every record schema of the system, `save`
is total and returns the schema's declared fields (its failure branch is
unreachable), and `Database::insert` always succeeds and appends exactly
one entry, the encoding of the value, to the store. -/
theorem save_total_insert_appends :
    (∀ (T : Type) [Serial T] (db : Database) (t : T),
        (db.insert t).entries = db.entries ++ [save t]
      ∧ (db.insert t).entries.length = db.entries.length + 1)
  ∧ (∀ r : v0.GreetingRequest, (save r).map Prod.fst = ["name", "favorite_thing"])
  ∧ (∀ g : v0.Greeting, (save g).map Prod.fst = ["name", "greeting"])
  ∧ (∀ r : v1.GreetingRequest,
        (save r).map Prod.fst = ["name", "favorite_thing", "favorite_song"])
  ∧ (∀ g : v1.Greeting, (save g).map Prod.fst = ["greeting"]) := by
  refine ⟨?_, fun _ => rfl, fun _ => rfl, fun _ => rfl, fun _ => rfl⟩
  intro T _ db t
  exact ⟨rfl, by simp [Database.insert]⟩

/-- C9: same-revision round trip: for each fixture schema, `load` of
`save` of any value succeeds and returns a value equal to the original on
every field. -/
theorem roundtrip_same_revision :
    (∀ r : v0.GreetingRequest, load v0.GreetingRequest (save r) = Except.ok r)
  ∧ (∀ g : v0.Greeting, load v0.Greeting (save g) = Except.ok g)
  ∧ (∀ r : v1.GreetingRequest, load v1.GreetingRequest (save r) = Except.ok r)
  ∧ (∀ g : v1.Greeting, load v1.Greeting (save g) = Except.ok g) :=
  ⟨fun _ => rfl, fun _ => rfl, fun _ => rfl, fun _ => rfl⟩

/-- C10: `ReqOld` and `ReqNew` carry the same single field `name`, so the
request change is compatible in both directions: each revision decodes the
other's encoding, preserving the field. -/
theorem request_revisions_both_directions :
    (∀ r : ReqNew, load ReqOld (save r) = Except.ok ⟨r.name⟩)
  ∧ (∀ r : ReqOld, load ReqNew (save r) = Except.ok ⟨r.name⟩) :=
  ⟨fun _ => rfl, fun _ => rfl⟩
